/-
  Verification of the NHC-log-viewer AI assistant orchestration core
  (src/components/AIAssistant.tsx) against its natural-language
  specification.

  The TypeScript source is shallowly embedded below: pure tool handlers
  become Lean functions over an explicit log corpus; the stateful parts
  (conversation state machine, rate governor, pending-prompt / API-key
  flow, Chrome built-in session lifecycle) become step functions on
  explicit state records, folded over event lists.  JavaScript numbers
  used as millisecond timestamps are modelled as `Int`; the statistics in
  `frequency_spike` (JS floats) keep their source shape over `ℝ`
  (`jsMean`, `jsStdDev`, `SpikeThreshold`), with an exact-integer
  executable form `spikeTest` proved equivalent in
  `spikeTest_iff_threshold`.
-/
import Mathlib

namespace NHCLogViewer

/-! ## Log corpus data model

`LogEntry` mirrors the boundary contract `{id, timestamp, level, message}`
(types.ts is consumed by AIAssistant.tsx; timestamps are epoch
milliseconds, `Date.getTime()`). -/

inductive LogLevel where
  | DEBUG | INFO | NOTICE | WARNING | ERROR | CRITICAL
deriving DecidableEq, Repr

structure LogEntry where
  id : Nat
  timestamp : Int
  level : LogLevel
  message : String
deriving DecidableEq, Repr

/-! ## Turn loop (runCloudAI, lines 568–622)

One inference step either proposes a tool call (the code executes the
first proposed call and continues the loop) or yields final text (the
code appends it and breaks).  A provider is modelled as the sequence of
step responses it would return, indexed by step number. -/

inductive StepResponse where
  | toolCall (name : String) (args : String)
  | finalText (text : String)
deriving DecidableEq, Repr

def StepResponse.isToolCall : StepResponse → Bool
  | .toolCall _ _ => true
  | .finalText _ => false

/-- `MAX_TURNS = 10` in `runCloudAI`. -/
def MAX_TURNS : Nat := 10

/-- One execution of the `for (let turn = 1; turn <= MAX_TURNS; turn++)`
loop body, counting executed steps.  Returns the number of inference
steps performed and the final answer text, if any step produced one
(`none` means the step budget was exhausted with every step proposing a
tool call; the code then falls out of the loop without fabricating a
message). -/
def turnLoopAux (provider : Nat → StepResponse) : Nat → Nat → Nat × Option String
  | 0, i => (i, none)
  | fuel + 1, i =>
    match provider i with
    | .toolCall _ _ => turnLoopAux provider fuel (i + 1)
    | .finalText t => (i + 1, some t)

def runTurnLoop (provider : Nat → StepResponse) : Nat × Option String :=
  turnLoopAux provider MAX_TURNS 0

/-! ## Conversation state machine (lines 180, 610–613, 619, 743)

The ref starts each user turn at `IDLE` (`handleSubmit` line 743), flips
to `ANALYZING` when a `search_logs` tool result carries a non-empty
`example_log_ids` (lines 610–613), and is reset to `IDLE` when the model
returns a final answer (line 619).  No other transition exists. -/

inductive ConversationState where
  | IDLE | ANALYZING
deriving DecidableEq, Repr

inductive ConvEvent where
  /-- a tool call completed inside the turn loop, with the
  `example_log_ids` list carried by its result (`[]` when the result has
  no such field). -/
  | toolResult (toolName : String) (exampleLogIds : List Nat)
  /-- the model produced a final (non-tool) answer. -/
  | finalAnswer
  /-- a brand-new user submission (`handleSubmit`). -/
  | newSubmission
deriving DecidableEq, Repr

def ConvEvent.isToolResult : ConvEvent → Bool
  | .toolResult _ _ => true
  | _ => false

def convStep (s : ConversationState) : ConvEvent → ConversationState
  | .toolResult name ids =>
      if name = "search_logs" ∧ ids.length > 0 then .ANALYZING else s
  | .finalAnswer => .IDLE
  | .newSubmission => .IDLE

/-- State after a sequence of events, starting from the per-turn initial
state `IDLE`. -/
def convRun (events : List ConvEvent) : ConversationState :=
  events.foldl convStep .IDLE

/-- The `example_log_ids` of the most recent `search_logs` tool result in
the event sequence, if any. -/
def lastSearchExampleIds (events : List ConvEvent) : Option (List Nat) :=
  events.reverse.findSome? fun e =>
    match e with
    | .toolResult name ids => if name = "search_logs" then some ids else none
    | _ => none

def recentSearchHasExample (events : List ConvEvent) : Bool :=
  match lastSearchExampleIds events with
  | some ids => ids.length > 0
  | none => false

/-! ## Rate governor and hosted-submission pipeline
(MODEL_CONFIG lines 192–198, getEffectiveModelTierAndRun lines 673–734,
runCloudAI key check lines 527–534, handleSaveSettings lines 383–393,
handleSubmit lines 736–748)

Hosted tiers in scan order, with their `rpm` ceilings from
`MODEL_CONFIG`.  Timestamps are epoch milliseconds (`Date.now()`). -/

inductive HostedTier where
  | pro        -- 'gemini-2.5-pro',         rpm 2
  | flash      -- 'gemini-2.5-flash',       rpm 10
  | flashLite  -- 'gemini-flash-lite-latest', rpm 15
deriving DecidableEq, Repr

def rpmLimit : HostedTier → Nat
  | .pro => 2
  | .flash => 10
  | .flashLite => 15

/-- `const tiers = ['gemini-2.5-pro', 'gemini-2.5-flash',
'gemini-flash-lite-latest']` (line 697). -/
def tierOrder : List HostedTier := [.pro, .flash, .flashLite]

/-- The scan `for (let i = currentTierIndex; i < tiers.length; i++)`
starts at the requested tier and walks toward cheaper tiers only. -/
def tiersFrom : HostedTier → List HostedTier
  | .pro => [.pro, .flash, .flashLite]
  | .flash => [.flash, .flashLite]
  | .flashLite => [.flashLite]

/-- Per-tier sliding windows of request timestamps
(`apiRequestTimestampsRef`). -/
structure RateWindows where
  pro : List Int
  flash : List Int
  flashLite : List Int
deriving DecidableEq, Repr

def RateWindows.get (w : RateWindows) : HostedTier → List Int
  | .pro => w.pro
  | .flash => w.flash
  | .flashLite => w.flashLite

/-- `apiRequestTimestampsRef.current[effectiveModel].push(now)`
(line 731): append the admission timestamp to the admitted tier. -/
def RateWindows.push (w : RateWindows) : HostedTier → Int → RateWindows
  | .pro, ts => { w with pro := w.pro ++ [ts] }
  | .flash, ts => { w with flash := w.flash ++ [ts] }
  | .flashLite, ts => { w with flashLite := w.flashLite ++ [ts] }

/-- `filter(ts => ts > oneMinuteAgo)` with
`oneMinuteAgo = now - 60000` (lines 684–690), applied to every tier. -/
def pruneWindows (w : RateWindows) (now : Int) : RateWindows where
  pro := w.pro.filter (fun ts => now - 60000 < ts)
  flash := w.flash.filter (fun ts => now - 60000 < ts)
  flashLite := w.flashLite.filter (fun ts => now - 60000 < ts)

/-- The inner scan: first tier (from the requested one downward) whose
pruned window is below its ceiling (`if (count < limit)` line 708). -/
def scanTiers (w : RateWindows) : List HostedTier → Option HostedTier
  | [] => none
  | t :: rest =>
    if (w.get t).length < rpmLimit t then some t else scanTiers w rest

inductive GovDecision where
  /-- admitted on `effective`; `degraded = true` exactly when a
  "model is busy" fallback notice is emitted (lines 710–712, 723–725). -/
  | admitted (effective : HostedTier) (degraded : Bool)
  /-- "All AI models are currently busy due to rate limits." and no
  dispatch (lines 715–719). -/
  | rejected
deriving DecidableEq, Repr

/-- One pass of the rate governor: prune, scan from the requested tier,
and on admission record the timestamp on the admitted tier. -/
def governor (w : RateWindows) (now : Int) (requested : HostedTier) :
    GovDecision × RateWindows :=
  let pruned := pruneWindows w now
  match scanTiers pruned (tiersFrom requested) with
  | some t => (.admitted t (decide (t ≠ requested)), pruned.push t now)
  | none => (.rejected, pruned)

/-- Conversation-scope mutable context for the hosted pipeline:
`apiRequestTimestampsRef`, `lastPromptRef`, `userApiKey`, plus
observation logs for emitted messages and provider dispatches. -/
structure AppState where
  windows : RateWindows
  lastPrompt : Option String
  userApiKey : String
  /-- count of visible "model is busy, using X" degradation notices. -/
  degradeNotices : Nat
  /-- count of "All AI models are currently busy" backpressure errors. -/
  backpressureMsgs : Nat
  /-- count of "API key is not configured" errors. -/
  keyMissingMsgs : Nat
  /-- user prompts that entered the pipeline (`addMessage('user', …)`). -/
  submittedPrompts : List String
  /-- provider dispatches actually performed: (prompt, effective tier). -/
  dispatches : List (String × HostedTier)
deriving DecidableEq, Repr

def initialAppState : AppState where
  windows := ⟨[], [], []⟩
  lastPrompt := none
  userApiKey := ""
  degradeNotices := 0
  backpressureMsgs := 0
  keyMissingMsgs := 0
  submittedPrompts := []
  dispatches := []

/-- A user submission on a hosted tier:
`handleSubmit` → `getEffectiveModelTierAndRun` → (governor) →
`runCloudAI` up to its key check / provider dispatch.  `envKey` models
`import.meta.env.VITE_API_KEY` (`""` = absent); the JS key expression is
`userApiKey || import.meta.env.VITE_API_KEY`, empty strings being falsy.
On a missing key the prompt is retained in `lastPromptRef` and no
dispatch occurs (lines 527–534). -/
def submitHosted (envKey : String) (st : AppState) (now : Int)
    (requested : HostedTier) (prompt : String) : AppState :=
  let st := { st with submittedPrompts := st.submittedPrompts ++ [prompt] }
  match governor st.windows now requested with
  | (.rejected, w) =>
      { st with windows := w, backpressureMsgs := st.backpressureMsgs + 1 }
  | (.admitted t deg, w) =>
      let st := { st with
                  windows := w,
                  degradeNotices := st.degradeNotices + (if deg then 1 else 0) }
      let apiKey := if st.userApiKey ≠ "" then st.userApiKey else envKey
      if apiKey = "" then
        { st with lastPrompt := some prompt,
                  keyMissingMsgs := st.keyMissingMsgs + 1 }
      else
        { st with dispatches := st.dispatches ++ [(prompt, t)] }

/-- JS `String.prototype.trim`: strip leading and trailing whitespace
(character-wise, so that it evaluates inside the kernel). -/
def jsTrim (s : String) : String :=
  ⟨((s.data.dropWhile Char.isWhitespace).reverse.dropWhile
      Char.isWhitespace).reverse⟩

/-- `handleSaveSettings` (lines 383–393): persist the trimmed key via
`setUserApiKey(newKey)` and, if it is non-empty and a prompt is pending,
re-submit exactly that prompt and then null `lastPromptRef`.

`userApiKey` is React `useState` state (line 342): `setUserApiKey` only
schedules the update, and the `handleSubmit → … → runCloudAI` chain
invoked synchronously right after it consists of the current render's
closures, whose captured `userApiKey` is still the pre-save value.  The
re-submission therefore runs against the stale key (`submitHosted` is
applied to `st`, not to the key-updated state); the scheduled state
update lands afterwards, as does the `lastPromptRef.current = null` on
line 391 (which overwrites the pending slot the failed retry may just
have re-set, since the missing-key branch of `runCloudAI` returns before
any `await`). -/
def saveSettings (envKey : String) (st : AppState) (key : String)
    (now : Int) (requested : HostedTier) : AppState :=
  let newKey := jsTrim key
  match st.lastPrompt with
  | some p =>
      if newKey ≠ "" then
        { (submitHosted envKey st now requested p) with
            userApiKey := newKey, lastPrompt := none }
      else { st with userApiKey := newKey }
  | none => { st with userApiKey := newKey }

/-! ## Tool execution engine: search_logs (handleToolCall lines 418–440)

JS `text.includes(kw)` is substring containment; `toLowerCase` is
modelled character-wise (the log samples are ASCII). -/

def toLowerStr (s : String) : String := ⟨s.data.map Char.toLower⟩

def isPrefixChars : List Char → List Char → Bool
  | [], _ => true
  | _ :: _, [] => false
  | a :: as, b :: bs => a = b && isPrefixChars as bs

/-- `haystack.includes(needle)` over character lists. -/
def hasSubstr (needle : List Char) : List Char → Bool
  | [] => needle.isEmpty
  | c :: rest => isPrefixChars needle (c :: rest) || hasSubstr needle rest

def strIncludes (haystack needle : String) : Bool :=
  hasSubstr needle.data haystack.data

inductive MatchMode where
  | AND | OR
deriving DecidableEq, Repr

/-- `` `${log.message} ${log.timestamp.toISOString()}`.toLowerCase() ``
(line 424); `fmt` is the timestamp formatter (`Date.toISOString`),
treated as an arbitrary rendering function. -/
def searchText (fmt : Int → String) (log : LogEntry) : String :=
  toLowerStr (log.message ++ " " ++ fmt log.timestamp)

/-- The per-entry filter of `search_logs` (lines 422–427): AND requires
every lower-cased keyword present, OR any. -/
def keywordMatch (fmt : Int → String) (kws : List String) (mode : MatchMode)
    (log : LogEntry) : Bool :=
  let lows := kws.map toLowerStr
  match mode with
  | .AND => lows.all (fun kw => strIncludes (searchText fmt log) kw)
  | .OR => lows.any (fun kw => strIncludes (searchText fmt log) kw)

/-- Entries matched by the `search_logs` filter, before the
`.slice(0, limit)` bound. -/
def searchLogsMatches (fmt : Int → String) (corpus : List LogEntry)
    (kws : List String) (mode : MatchMode) : List LogEntry :=
  corpus.filter (keywordMatch fmt kws mode)

/-- `results` after `.slice(0, limit)` (line 427). -/
def searchLogsResults (fmt : Int → String) (corpus : List LogEntry)
    (kws : List String) (mode : MatchMode) (limit : Nat) : List LogEntry :=
  (searchLogsMatches fmt corpus kws mode).take limit

/-- `example_log_ids: results.slice(0, 3).map(l => l.id)` (line 438). -/
def searchLogsExampleIds (fmt : Int → String) (corpus : List LogEntry)
    (kws : List String) (mode : MatchMode) (limit : Nat) : List Nat :=
  ((searchLogsResults fmt corpus kws mode limit).take 3).map LogEntry.id

/-! ## Tool execution engine: find_log_patterns (lines 442–490) -/

/-- `message.replace(/\d+/g, 'N')`: every maximal run of decimal digits
becomes a single `'N'`.  The boolean tracks whether the previous
character was part of a digit run being replaced. -/
def normalizeDigitsAux : Bool → List Char → List Char
  | _, [] => []
  | inRun, c :: rest =>
    if c.isDigit then
      if inRun then normalizeDigitsAux true rest
      else 'N' :: normalizeDigitsAux true rest
    else c :: normalizeDigitsAux false rest

def normalizeDigits (s : String) : String := ⟨normalizeDigitsAux false s.data⟩

structure PatternGroup where
  pattern : String
  count : Nat
  exampleId : Nat
deriving DecidableEq, Repr

/-- The `reduce` accumulator of `repeating_error` (lines 457–462): a JS
object keyed by normalized message, in insertion order (string keys);
the first entry's id is kept, the count incremented. -/
def addToGroups : List PatternGroup → String → Nat → List PatternGroup
  | [], msg, id => [⟨msg, 1, id⟩]
  | g :: gs, msg, id =>
    if g.pattern = msg then { g with count := g.count + 1 } :: gs
    else g :: addToGroups gs msg id

def groupErrors (logs : List LogEntry) : List PatternGroup :=
  (logs.filter (fun l =>
      decide (l.level = .ERROR) || decide (l.level = .CRITICAL))).foldl
    (fun acc log => addToGroups acc (normalizeDigits log.message) log.id) []

/-- `Array.prototype.sort((a, b) => b.count - a.count)` is a stable
descending sort by count: each element is inserted after every
earlier element with a count ≥ its own. -/
def insertByCountDesc (x : PatternGroup) : List PatternGroup → List PatternGroup
  | [] => [x]
  | y :: ys =>
    if x.count ≤ y.count then y :: insertByCountDesc x ys else x :: y :: ys

def sortByCountDesc (l : List PatternGroup) : List PatternGroup :=
  l.foldl (fun acc x => insertByCountDesc x acc) []

inductive PatternType where
  | repeatingError | frequencySpike
deriving DecidableEq, Repr

inductive PatternResult where
  /-- 'No repeating error patterns found.' -/
  | noRepeating
  /-- the `top_patterns` list (pattern text, count, example id). -/
  | repeating (top : List PatternGroup)
  /-- 'Not enough data to detect spikes.' (fewer than 2 buckets). -/
  | notEnoughData
  /-- 'No significant spikes in log frequency detected.' -/
  | noSpikes
  /-- the `spikes` list: (bucket start in epoch ms, count). -/
  | spikes (s : List (Int × Nat))
  /-- 'Pattern type not implemented.' (unreachable for the two
  modelled pattern types). -/
  | notImplemented
deriving DecidableEq, Repr

/-- `Math.floor(log.timestamp.getTime() / bucketSize)` with
`bucketSize = 60000` (lines 472–475). -/
def bucketIndex (ts : Int) : Int := Int.fdiv ts 60000

/-- The `buckets` object accumulation; JS objects enumerate integer-like
keys in ascending numeric order, so the association list is kept sorted
by bucket index. -/
def addBucket : List (Int × Nat) → Int → List (Int × Nat)
  | [], b => [(b, 1)]
  | (k, c) :: rest, b =>
    if b = k then (k, c + 1) :: rest
    else if b < k then (b, 1) :: (k, c) :: rest
    else (k, c) :: addBucket rest b

def bucketize (logs : List LogEntry) : List (Int × Nat) :=
  logs.foldl (fun acc l => addBucket acc (bucketIndex l.timestamp)) []

/-- `const avg = counts.reduce((a,b) => a+b, 0) / counts.length`
(line 480), over the reals. -/
noncomputable def jsMean (counts : List Nat) : ℝ :=
  ((counts.map (Nat.cast)).sum : ℝ) / counts.length

/-- `Math.sqrt(counts.map(x => (x-avg)^2).reduce((a,b)=>a+b,0) /
counts.length)` (line 481): population standard deviation. -/
noncomputable def jsStdDev (counts : List Nat) : ℝ :=
  Real.sqrt (((counts.map (fun (x : Nat) =>
    ((x : ℝ) - jsMean counts) ^ 2)).sum) / counts.length)

/-- The spike condition `count > avg + 2 * stdDev` (line 482), stated
faithfully over the reals. -/
def SpikeThreshold (counts : List Nat) (c : Nat) : Prop :=
  jsMean counts + 2 * jsStdDev counts < (c : ℝ)

/-- Executable form of the spike condition, in exact integer arithmetic
(`n·(c·n − S)² > 4·Σ(x·n − S)²` together with `c·n > S`, which for
`n > 0` is equivalent to `c > avg + 2·stdDev`; see
`spikeTest_iff_threshold`). -/
def spikeTest (counts : List Nat) (c : Nat) : Bool :=
  let n := counts.length
  let S := counts.sum
  decide (S < c * n) &&
    decide (4 * (counts.map (fun (x : Nat) => ((x : Int) * n - S) ^ 2)).sum
      < (n : Int) * ((c : Int) * n - S) ^ 2)

/-- `find_log_patterns` (lines 442–490).  `timeWindowMinutes` restricts
to the trailing window measured from the last log's timestamp
(lines 444–449).  (The JS code reads `allLogs[allLogs.length-1]`
unconditionally there; the empty-corpus access is modelled with end
time 0, a case none of the verified properties touch.) -/
def findLogPatterns (corpus : List LogEntry) (ptype : PatternType)
    (timeWindowMinutes : Option Int) : PatternResult :=
  let targetLogs := match timeWindowMinutes with
    | some m =>
      let endTime := ((corpus.getLast?).map LogEntry.timestamp).getD 0
      let startTime := endTime - m * 60 * 1000
      corpus.filter (fun l =>
        decide (startTime ≤ l.timestamp) && decide (l.timestamp ≤ endTime))
    | none => corpus
  match ptype with
  | .repeatingError =>
    let top := (sortByCountDesc (groupErrors targetLogs)).take 5
    if top.isEmpty then .noRepeating else .repeating top
  | .frequencySpike =>
    let buckets := bucketize targetLogs
    let counts := buckets.map Prod.snd
    if buckets.length < 2 then .notEnoughData
    else
      let spks := buckets.filter (fun bc => spikeTest counts bc.2)
      if spks.isEmpty then .noSpikes
      else .spikes (spks.map (fun bc => (bc.1 * 60000, bc.2)))

/-! ## Dynamic tool dispatch (handleToolCall lines 403–525)

Tool-call arguments arrive as untyped JSON from the model.  `JValue`
models JS values as the tool handler sees them; `JsOutcome` separates a
structured result (fed back into history) from a thrown `TypeError`
(which `runCloudAI` does not catch around `handleToolCall`, so it
aborts the turn). -/

inductive JValue where
  | null | undef
  | bool (b : Bool)
  | num (n : Int)
  | str (s : String)
  | arr (elems : List JValue)
  | obj (fields : List (String × JValue))

/-- JS property access `args.f`: an absent field reads as `undefined`. -/
def JValue.getField : JValue → String → JValue
  | .obj fields, name => (fields.lookup name).getD .undef
  | _, _ => .undef

def JValue.truthy : JValue → Bool
  | .null => false
  | .undef => false
  | .bool b => b
  | .num n => decide (n ≠ 0)
  | .str s => decide (s ≠ "")
  | .arr _ => true
  | .obj _ => true

/-- JS `.length`: arrays and strings carry one; on any other value the
access yields `undefined` (so `x.length === 0` is false). -/
def JValue.jsLength : JValue → Option Nat
  | .arr l => some l.length
  | .str s => some s.length
  | _ => none

def JValue.asStr? : JValue → Option String
  | .str s => some s
  | _ => none

/-- JS strict string comparison `x === 'lit'`. -/
def JValue.eqStr : JValue → String → Bool
  | .str s, t => s = t
  | _, _ => false

/-- The `search_logs` branch (lines 418–440) under dynamic argument
semantics.  `const { keywords, match_mode = 'OR', limit = 100 } = args`
substitutes defaults only for `undefined`; `if (!keywords ||
keywords.length === 0)` covers falsy and empty values; then
`keywords.map(k => k.toLowerCase())` throws a `TypeError` unless
`keywords` is an array of strings — the code performs no schema
validation before these accesses. -/
def searchLogsDyn (fmt : Int → String) (corpus : List LogEntry)
    (args : JValue) : Except String JValue :=
  let keywords := args.getField "keywords"
  if !keywords.truthy || keywords.jsLength == some 0 then
    .ok (.obj [("summary", .str "No keywords provided.")])
  else
    match keywords with
    | .arr elems =>
      match elems.mapM JValue.asStr? with
      | some kws =>
        let mode : MatchMode :=
          if (args.getField "match_mode").eqStr "AND" then .AND else .OR
        let limit : Nat :=
          match args.getField "limit" with
          | .undef => 100
          | .num n => n.toNat
          | _ => 0
        let results := searchLogsResults fmt corpus kws mode limit
        if results.isEmpty then
          .ok (.obj [("summary", .str "Found 0 logs matching the criteria.")])
        else
          .ok (.obj [("summary", .str "Found logs."),
            ("example_log_ids",
              .arr (((results.take 3).map LogEntry.id).map
                (fun i => JValue.num i)))])
      | none => .error "TypeError: k.toLowerCase is not a function"
    | _ => .error "TypeError: keywords.map is not a function"

/-- `handleToolCall` dispatch under dynamic argument semantics, covering
the branches the error-handling claims exercise.  The side-effecting
tools and the remaining analysis tools only read argument fields (no
method calls on them), so they return structured results for any
argument shape. -/
def handleToolCallDyn (fmt : Int → String) (corpus : List LogEntry)
    (toolName : String) (args : JValue) : Except String JValue :=
  match toolName with
  | "search_logs" => searchLogsDyn fmt corpus args
  | "update_filters" =>
    .ok (.obj [("success", .bool true),
      ("summary", .str "Created a new tab with the specified filters.")])
  | "scroll_to_log" =>
    .ok (.obj [("success", .bool true), ("summary", .str "Scrolled.")])
  | _ => .ok (.obj [("error",
      .str ("Tool \x22" ++ toolName ++ "\x22 not found."))])

/-- A provider step as seen by the dynamic loop of `runCloudAI`. -/
inductive DynStep where
  | toolCall (name : String) (args : JValue)
  | finalText (t : String)

inductive LoopEnd where
  | finalAnswer (t : String) (steps : Nat)
  | budgetExhausted (steps : Nat)
  /-- an exception escaped `handleToolCall`; `runCloudAI` has no
  try/catch around the tool execution (line 606), so the turn aborts. -/
  | crashed (e : String) (steps : Nat)
deriving DecidableEq, Repr

def turnLoopDyn (fmt : Int → String) (corpus : List LogEntry)
    (provider : Nat → DynStep) : Nat → Nat → LoopEnd
  | 0, i => .budgetExhausted i
  | fuel + 1, i =>
    match provider i with
    | .finalText t => .finalAnswer t (i + 1)
    | .toolCall name args =>
      match handleToolCallDyn fmt corpus name args with
      | .ok _ => turnLoopDyn fmt corpus provider fuel (i + 1)
      | .error e => .crashed e (i + 1)

/-! ## Chrome built-in session lifecycle (lines 373–381, 632–663)

`chromeAiSession` is created lazily when absent (lines 640–647), reused
otherwise, destroyed in the catch handler after a failure
(lines 656–659) and on component unmount (lines 373–381). -/

structure ChromeSessionState where
  /-- `chromeAiSession.current`, tagging sessions by creation index. -/
  session : Option Nat
  createdCount : Nat
  destroyedCount : Nat
deriving DecidableEq, Repr

def initialChromeState : ChromeSessionState := ⟨none, 0, 0⟩

inductive ChromeEvent where
  /-- a `runChromeBuiltInAI` invocation that succeeds end to end. -/
  | promptOk
  /-- `window.ai.languageModel.create` throws: `current` is still null
  in the catch handler, so nothing is destroyed. -/
  | promptCreateFails
  /-- `session.prompt` throws: the catch handler destroys the session
  and nulls the ref. -/
  | promptCallFails
  /-- conversation-surface teardown (the unmount cleanup effect). -/
  | teardown
deriving DecidableEq, Repr

def chromeStep (st : ChromeSessionState) : ChromeEvent → ChromeSessionState
  | .promptOk =>
    match st.session with
    | some _ => st
    | none => { st with session := some st.createdCount,
                        createdCount := st.createdCount + 1 }
  | .promptCreateFails =>
    match st.session with
    | some _ => st  -- no create is attempted when a session exists
    | none => st
  | .promptCallFails =>
    match st.session with
    | some _ => { st with session := none,
                          destroyedCount := st.destroyedCount + 1 }
    | none =>
      { st with session := none,
                createdCount := st.createdCount + 1,
                destroyedCount := st.destroyedCount + 1 }
  | .teardown =>
    match st.session with
    | some _ => { st with session := none,
                          destroyedCount := st.destroyedCount + 1 }
    | none => st

def chromeRun (events : List ChromeEvent) : ChromeSessionState :=
  events.foldl chromeStep initialChromeState

/-- Number of sessions live in a state. -/
def ChromeSessionState.liveCount (st : ChromeSessionState) : Nat :=
  st.createdCount - st.destroyedCount

/-! ## Concrete scenario inputs used by the verified properties -/

/-- A provider that proposes tool calls for two steps and then answers. -/
def sampleProvider : Nat → StepResponse := fun k =>
  if k < 2 then .toolCall "search_logs" "\x7b\x7d" else .finalText "done"

/-- Timestamp formatter standing in for `Date.toISOString` in concrete
evaluations (its rendering is irrelevant to the verified properties). -/
def sampleFmt : Int → String := fun _ => ""

def sampleLog : LogEntry := ⟨1, 0, .WARNING, "Battery low"⟩

def sampleCorpus : List LogEntry :=
  [sampleLog, ⟨2, 1000, .INFO, "charger connected"⟩,
   ⟨3, 2000, .INFO, "all good"⟩]

/-- The spec's repeating-error corpus:
`[{ERROR,"disk N full"}×3, {ERROR,"disk 7 full"}, {INFO,"ok"}]`. -/
def c4Corpus : List LogEntry :=
  [⟨1, 0, .ERROR, "disk N full"⟩, ⟨2, 0, .ERROR, "disk N full"⟩,
   ⟨3, 0, .ERROR, "disk N full"⟩, ⟨4, 0, .ERROR, "disk 7 full"⟩,
   ⟨5, 0, .INFO, "ok"⟩]

/-- Ten one-minute buckets of count 1 followed by one bucket of
count 20. -/
def c5Corpus : List LogEntry :=
  ((List.range 10).map (fun i => ⟨i, (i : Int) * 60000, .INFO, "x"⟩))
    ++ ((List.range 20).map (fun j => ⟨10 + j, 600000, .INFO, "x"⟩))

/-- A corpus occupying a single 60-second bucket. -/
def c5Single : List LogEntry := [⟨0, 0, .INFO, "x"⟩, ⟨1, 1000, .INFO, "x"⟩]

/-- Rate-governor scenario: three submissions on the top tier within one
60-second window, then one 61 seconds after the earlier ones. -/
def govScenario1 : AppState := submitHosted "envkey" initialAppState 0 .pro "q1"
def govScenario2 : AppState := submitHosted "envkey" govScenario1 1000 .pro "q2"
def govScenario3 : AppState := submitHosted "envkey" govScenario2 2000 .pro "q3"
def govScenario4 : AppState := submitHosted "envkey" govScenario3 61001 .pro "q4"

/-- Windows in which every tier from the requested one downward is at
its ceiling. -/
def saturatedWindows : RateWindows :=
  ⟨[0, 0], List.replicate 10 0, List.replicate 15 0⟩

def govSaturated : AppState :=
  submitHosted "envkey" { initialAppState with windows := saturatedWindows }
    1 .pro "q5"

/-- Missing-credential scenario: two submissions with no user key and no
environment key, then a save of a non-empty key (whose synchronous retry
still observes the stale pre-save key), then a second key save. -/
def pending1 (p1 : String) : AppState :=
  submitHosted "" initialAppState 0 .flash p1
def pending2 (p1 p2 : String) : AppState :=
  submitHosted "" (pending1 p1) 1000 .flash p2
def afterSave (p1 p2 k : String) : AppState :=
  saveSettings "" (pending2 p1 p2) k 2000 .flash
def afterSave2 (p1 p2 k k2 : String) : AppState :=
  saveSettings "" (afterSave p1 p2 k) k2 3000 .flash

/-- A provider that first calls an unknown tool (tolerated), then calls
`search_logs` with a non-array `keywords` argument. -/
def c8Provider : Nat → DynStep
  | 0 => .toolCall "frobnicate" (.obj [])
  | 1 => .toolCall "search_logs" (.obj [("keywords", .num 5)])
  | _ => .finalText "unreached"

/-! ## Helper lemmas -/

lemma RateWindows.get_push (w : RateWindows) (t : HostedTier) (ts : Int) :
    (w.push t ts).get t = w.get t ++ [ts] := by
  cases t <;> rfl

/-- The single-session invariant preserved by every Chrome lifecycle
event. -/
lemma chromeStep_inv (st : ChromeSessionState) (e : ChromeEvent)
    (h : st.destroyedCount ≤ st.createdCount
      ∧ st.createdCount - st.destroyedCount
          = (if st.session.isSome then 1 else 0)) :
    (chromeStep st e).destroyedCount ≤ (chromeStep st e).createdCount
      ∧ (chromeStep st e).createdCount - (chromeStep st e).destroyedCount
          = (if (chromeStep st e).session.isSome then 1 else 0) := by
  obtain ⟨h1, h2⟩ := h
  cases e <;> cases hs : st.session <;>
    simp [chromeStep, hs] at h2 ⊢ <;> omega

lemma chromeRun_inv (events : List ChromeEvent) :
    (chromeRun events).destroyedCount ≤ (chromeRun events).createdCount
      ∧ (chromeRun events).createdCount - (chromeRun events).destroyedCount
          = (if (chromeRun events).session.isSome then 1 else 0) := by
  rw [chromeRun]
  induction events using List.reverseRecOn with
  | nil => simp [initialChromeState]
  | append_singleton rest e ih =>
    rw [List.foldl_append, List.foldl_cons, List.foldl_nil]
    exact chromeStep_inv _ e ih

lemma turnLoopAux_steps_le (provider : Nat → StepResponse) :
    ∀ fuel i, (turnLoopAux provider fuel i).1 ≤ i + fuel := by
  intro fuel
  induction fuel with
  | zero => intro i; simp [turnLoopAux]
  | succ n ih =>
    intro i
    cases hp : provider i with
    | toolCall name args =>
      have := ih (i + 1)
      simp only [turnLoopAux, hp]
      omega
    | finalText t =>
      simp only [turnLoopAux, hp]
      omega

lemma turnLoopAux_all_tool (provider : Nat → StepResponse) :
    ∀ fuel i, (∀ k, k < fuel → (provider (i + k)).isToolCall = true) →
      turnLoopAux provider fuel i = (i + fuel, none) := by
  intro fuel
  induction fuel with
  | zero => intro i _; simp [turnLoopAux]
  | succ n ih =>
    intro i h
    have h0 : (provider i).isToolCall = true := by
      simpa using h 0 (Nat.succ_pos n)
    cases hp : provider i with
    | toolCall name args =>
      have hrec := ih (i + 1) (fun k hk => by
        have := h (k + 1) (by omega)
        have heq : i + (k + 1) = i + 1 + k := by omega
        rwa [heq] at this)
      simp only [turnLoopAux, hp, hrec, Prod.mk.injEq]
      exact ⟨by omega, trivial⟩
    | finalText t => rw [hp] at h0; simp [StepResponse.isToolCall] at h0

lemma turnLoopAux_first_final (provider : Nat → StepResponse)
    (m : Nat) (t : String)
    (hm : provider m = .finalText t)
    (hbefore : ∀ k, k < m → (provider k).isToolCall = true) :
    ∀ fuel i, i ≤ m → m < i + fuel →
      turnLoopAux provider fuel i = (m + 1, some t) := by
  intro fuel
  induction fuel with
  | zero => intro i _ h2; omega
  | succ n ih =>
    intro i h1 h2
    rcases Nat.lt_or_ge i m with hlt | hge
    · have hi : (provider i).isToolCall = true := hbefore i hlt
      cases hp : provider i with
      | toolCall name args =>
        have hrec := ih (i + 1) (by omega) (by omega)
        simp only [turnLoopAux, hp, hrec]
      | finalText s => rw [hp] at hi; simp [StepResponse.isToolCall] at hi
    · have : i = m := by omega
      subst this
      simp only [turnLoopAux, hm]

lemma convStep_toolResult_ne_analyzing (s : ConversationState) (name : String)
    (ids : List Nat) (h : ¬ (name = "search_logs" ∧ ids.length > 0)) :
    convStep s (.toolResult name ids) = s := by
  simp [convStep, h]

lemma foldl_convStep_analyzing_iff (events : List ConvEvent) :
    ∀ s : ConversationState, (∀ e ∈ events, e.isToolResult = true) →
      (events.foldl convStep s = .ANALYZING ↔
        s = .ANALYZING ∨
          ∃ ids : List Nat,
            ConvEvent.toolResult "search_logs" ids ∈ events ∧ ids ≠ []) := by
  induction events with
  | nil => intro s _; simp
  | cons e rest ih =>
    intro s hall
    have hrest : ∀ x ∈ rest, x.isToolResult = true :=
      fun x hx => hall x (List.mem_cons_of_mem e hx)
    cases e with
    | toolResult name ids =>
      by_cases hfire : name = "search_logs" ∧ ids.length > 0
      · have hstep : convStep s (.toolResult name ids) = .ANALYZING := by
          simp [convStep, hfire]
        rw [List.foldl_cons, hstep, ih .ANALYZING hrest]
        constructor
        · intro _
          right
          exact ⟨ids, by
            rw [hfire.1]
            exact List.mem_cons_self _ _, by
              intro hnil
              rw [hnil] at hfire
              simp at hfire⟩
        · intro _; left; rfl
      · have hstep : convStep s (.toolResult name ids) = s :=
          convStep_toolResult_ne_analyzing s name ids hfire
        rw [List.foldl_cons, hstep, ih s hrest]
        constructor
        · rintro (hs | ⟨ids', hmem, hne⟩)
          · exact Or.inl hs
          · exact Or.inr ⟨ids', List.mem_cons_of_mem _ hmem, hne⟩
        · rintro (hs | ⟨ids', hmem, hne⟩)
          · exact Or.inl hs
          · rcases List.mem_cons.mp hmem with heq | hmem'
            · exfalso
              apply hfire
              injection heq with h1 h2
              constructor
              · exact h1.symm
              · have hlen : ids'.length > 0 := by
                  cases ids' with
                  | nil => exact absurd rfl hne
                  | cons a l => simp
                exact h2 ▸ hlen
            · exact Or.inr ⟨ids', hmem', hne⟩
    | finalAnswer =>
      exfalso
      have := hall _ (List.mem_cons_self _ _)
      simp [ConvEvent.isToolResult] at this
    | newSubmission =>
      exfalso
      have := hall _ (List.mem_cons_self _ _)
      simp [ConvEvent.isToolResult] at this

/-! ## C1: conversation state vs. search results -/

/-- C1 (counterexample): the claim "the state machine is in `ANALYZING`
if and only if the most recent `search_logs` tool result carries at
least one example log identifier" fails on the code: after a
`search_logs` result with examples followed by one with none, the state
is still `ANALYZING` although the most recent `search_logs` result
carries no example identifier (the transition at lines 610–613 only ever
sets `ANALYZING`, never clears it on an example-free result). -/
theorem conv_state_most_recent_search_counterexample :
    convRun [ConvEvent.toolResult "search_logs" [5],
             ConvEvent.toolResult "search_logs" []] = .ANALYZING
    ∧ recentSearchHasExample
        [ConvEvent.toolResult "search_logs" [5],
         ConvEvent.toolResult "search_logs" []] = false := by
  decide

/-- C1 (amended): within a turn (a sequence of tool-result events), the
state machine is in `ANALYZING` iff **some** `search_logs` result so far
carried at least one example log identifier; and it returns to `IDLE` on
every final (non-tool) answer and on every new user submission. -/
theorem conv_state_analyzing_characterization
    (events : List ConvEvent) (h : ∀ e ∈ events, e.isToolResult = true) :
    (convRun events = .ANALYZING ↔
      ∃ ids : List Nat,
        ConvEvent.toolResult "search_logs" ids ∈ events ∧ ids ≠ [])
    ∧ (∀ s : ConversationState, convStep s .finalAnswer = .IDLE)
    ∧ (∀ s : ConversationState, convStep s .newSubmission = .IDLE) := by
  refine ⟨?_, fun s => rfl, fun s => rfl⟩
  have hiff := foldl_convStep_analyzing_iff events .IDLE h
  rw [convRun, hiff]
  simp

/-- Witness for `conv_state_analyzing_characterization` at a concrete
event sequence. -/
theorem conv_state_analyzing_characterization_witness :
    convRun [ConvEvent.toolResult "search_logs" [3]] = .ANALYZING := by
  have h := conv_state_analyzing_characterization
    [ConvEvent.toolResult "search_logs" [3]] (by decide)
  exact h.1.mpr ⟨[3], by simp, by simp⟩

/-! ## C2: bounded turn loop -/

/-- C2: each hosted user turn performs at most 10 inference steps; the
loop terminates as soon as a step proposes no tool call, that step's
text becoming the final answer; and when every step proposes a tool call
it stops after exactly 10 steps with no fabricated final message. -/
theorem turn_loop_step_budget (provider : Nat → StepResponse)
    (m : Nat) (t : String) :
    (runTurnLoop provider).1 ≤ MAX_TURNS
    ∧ ((∀ k, k < MAX_TURNS → (provider k).isToolCall = true) →
        runTurnLoop provider = (MAX_TURNS, none))
    ∧ (provider m = .finalText t →
        (∀ k, k < m → (provider k).isToolCall = true) →
        m < MAX_TURNS →
        runTurnLoop provider = (m + 1, some t)) := by
  refine ⟨?_, ?_, ?_⟩
  · simpa using turnLoopAux_steps_le provider MAX_TURNS 0
  · intro h
    simpa [runTurnLoop] using
      turnLoopAux_all_tool provider MAX_TURNS 0 (fun k hk => by
        simpa using h k hk)
  · intro hm hb hlt
    exact turnLoopAux_first_final provider m t hm hb MAX_TURNS 0
      (Nat.zero_le m) (by omega)

/-- Witness for `turn_loop_step_budget`: a provider that proposes tool
calls twice and then answers makes the loop stop after exactly 3 steps
with that answer. -/
theorem turn_loop_step_budget_witness :
    runTurnLoop sampleProvider = (3, some "done") := by
  exact (turn_loop_step_budget sampleProvider 2 "done").2.2
    (by decide) (by decide) (by decide)

/-! ## C3: rate governor degradation -/

/-- C3: with ceilings {pro: 2, flash: 10, flashLite: 15} and requested
tier pro, three submissions within one 60-second window admit the first
two on pro and the third on flash with exactly one degradation notice; a
submission more than 60 seconds later is admitted on pro again; and when
every tier from the requested one downward is at its ceiling the turn is
rejected with a backpressure message, no dispatch, and no timestamp
recorded. -/
theorem rate_governor_degradation_scenario :
    govScenario1.dispatches = [("q1", .pro)]
    ∧ govScenario1.degradeNotices = 0
    ∧ govScenario2.dispatches = [("q1", .pro), ("q2", .pro)]
    ∧ govScenario2.degradeNotices = 0
    ∧ govScenario3.dispatches = [("q1", .pro), ("q2", .pro), ("q3", .flash)]
    ∧ govScenario3.degradeNotices = 1
    ∧ govScenario4.dispatches
        = [("q1", .pro), ("q2", .pro), ("q3", .flash), ("q4", .pro)]
    ∧ govScenario4.degradeNotices = 1
    ∧ govSaturated.dispatches = []
    ∧ govSaturated.backpressureMsgs = 1
    ∧ govSaturated.windows = saturatedWindows := by
  decide

/-! ## C10: admission recorded before the key check -/

/-- C10: whenever the governor admits a hosted submission, the current
timestamp is appended to the admitted tier's window before the API-key
check runs, so a turn that aborts for a missing key still consumes one
rate-limit slot on that tier (and performs no dispatch, retaining the
prompt). -/
theorem admission_slot_consumed_despite_missing_key
    (st : AppState) (now : Int) (req : HostedTier) (p envKey : String)
    (t : HostedTier) (deg : Bool)
    (hu : st.userApiKey = "") (he : envKey = "")
    (hadm : (governor st.windows now req).1 = .admitted t deg) :
    ((submitHosted envKey st now req p).windows.get t).length
      = ((pruneWindows st.windows now).get t).length + 1
    ∧ (submitHosted envKey st now req p).dispatches = st.dispatches
    ∧ (submitHosted envKey st now req p).lastPrompt = some p := by
  cases hscan : scanTiers (pruneWindows st.windows now) (tiersFrom req) with
  | none => simp [governor, hscan] at hadm
  | some eff =>
    have ht : eff = t := by
      simp [governor, hscan] at hadm
      exact hadm.1
    subst ht
    have hgov : governor st.windows now req
        = (.admitted eff (decide (eff ≠ req)),
           (pruneWindows st.windows now).push eff now) := by
      simp [governor, hscan]
    simp only [submitHosted, hgov, hu, he]
    simp [RateWindows.get_push]

/-- Witness for `admission_slot_consumed_despite_missing_key`: a first
submission with no key recorded one slot on the requested tier, no
dispatch, and a retained prompt. -/
theorem admission_slot_consumed_despite_missing_key_witness :
    ((submitHosted "" initialAppState 0 .pro "x").windows.get .pro).length
      = ((pruneWindows initialAppState.windows 0).get .pro).length + 1
    ∧ (submitHosted "" initialAppState 0 .pro "x").dispatches
        = initialAppState.dispatches
    ∧ (submitHosted "" initialAppState 0 .pro "x").lastPrompt = some "x" :=
  admission_slot_consumed_despite_missing_key initialAppState 0 .pro "x" ""
    .pro false rfl rfl (by decide)

/-! ## C7: pending prompt on missing API key -/

/-- C7 (code evaluated at the failing input): with neither a
user-supplied nor an environment API key, a hosted submission dispatches
nothing and retains the prompt as the single pending prompt, and a
second submission replaces (discards) the previously pending prompt —
those parts of the claim hold.  But saving the non-empty key "key" then
re-submits the pending prompt through closures whose `userApiKey` is
still the stale pre-save value: the retry hits the missing-key branch
again (a third "API key is not configured" error), performs no provider
dispatch, and `lastPromptRef` is then nulled, losing the prompt — a
further save re-submits nothing.  The automatic retry the claim (and the
in-code "API key saved. Retrying your last request..." message) promises
can never dispatch. -/
theorem pending_prompt_retry_stale_key :
    (pending1 "a").dispatches = [] ∧ (pending1 "a").lastPrompt = some "a"
    ∧ (pending2 "a" "b").dispatches = []
    ∧ (pending2 "a" "b").lastPrompt = some "b"
    ∧ (afterSave "a" "b" "key").submittedPrompts = ["a", "b", "b"]
    ∧ (afterSave "a" "b" "key").dispatches = []
    ∧ (afterSave "a" "b" "key").keyMissingMsgs = 3
    ∧ (afterSave "a" "b" "key").lastPrompt = none
    ∧ (afterSave "a" "b" "key").userApiKey = "key"
    ∧ (afterSave2 "a" "b" "key" "k2").dispatches = []
    ∧ (afterSave2 "a" "b" "key" "k2").submittedPrompts = ["a", "b", "b"] := by
  decide

/-! ## C9: Chrome built-in session lifecycle -/

/-- C9 (counterexample): the claim that a single on-device session is
created on first use, reused by every subsequent prompt, and destroyed
(only) on conversation-surface teardown fails on the code: after a
prompt failure the catch handler destroys the session mid-conversation
(lines 656–659), and the next prompt creates a second session — two
sessions are created and one destroyed with no teardown event. -/
theorem chrome_session_single_counterexample :
    (chromeRun [.promptOk, .promptCallFails, .promptOk]).createdCount = 2
    ∧ (chromeRun [.promptOk, .promptCallFails, .promptOk]).destroyedCount
        = 1 := by
  decide

/-- C9 (amended): at any instant at most one live on-device session
exists; a session is created lazily exactly when a prompt finds none
live, a prompt arriving with a live session and no error reuses it
without creating another, and the session is destroyed on
conversation-surface teardown and additionally on a prompt failure. -/
theorem chrome_session_lifecycle (events : List ChromeEvent) :
    (chromeRun events).destroyedCount ≤ (chromeRun events).createdCount
    ∧ (chromeRun events).liveCount ≤ 1
    ∧ ((chromeRun events).liveCount = 1 ↔ (chromeRun events).session.isSome)
    ∧ (chromeStep (chromeRun events) .teardown).session = none
    ∧ (∀ s, (chromeRun events).session = some s →
        chromeStep (chromeRun events) .promptOk = chromeRun events)
    ∧ ((chromeRun events).session = none →
        (chromeStep (chromeRun events) .promptOk).createdCount
          = (chromeRun events).createdCount + 1) := by
  have hinv := chromeRun_inv events
  refine ⟨hinv.1, ?_, ?_, ?_, ?_, ?_⟩
  · rw [ChromeSessionState.liveCount, hinv.2]
    cases (chromeRun events).session <;> simp
  · rw [ChromeSessionState.liveCount, hinv.2]
    cases (chromeRun events).session <;> simp
  · cases hs : (chromeRun events).session <;>
      simp [chromeStep, hs]
  · intro s hs
    simp [chromeStep, hs]
  · intro hs
    simp [chromeStep, hs]

/-- Witness for `chrome_session_lifecycle`: after one successful prompt
the created session is reused by the next successful prompt. -/
theorem chrome_session_lifecycle_witness :
    chromeStep (chromeRun [.promptOk]) .promptOk = chromeRun [.promptOk] :=
  (chrome_session_lifecycle [.promptOk]).2.2.2.2.1 0 (by decide)

/-! ## C8: tool errors vs. argument-shape crashes -/

/-- C8 (code evaluated at the failing input): an unknown tool name does
yield a structured error result that is fed back into history and the
loop continues past it — but `search_logs` invoked with a non-array
`keywords` argument (here the number 5) is not validated against the
declared parameter schema: `keywords.map(k => k.toLowerCase())` throws a
TypeError that escapes `handleToolCall` (there is no try/catch around
the tool execution at line 606) and aborts the turn loop, contradicting
the claim that argument mismatch never raises and never aborts. -/
theorem tool_argument_mismatch_crashes_loop :
    handleToolCallDyn sampleFmt [] "search_logs"
        (.obj [("keywords", .num 5)])
      = .error "TypeError: keywords.map is not a function"
    ∧ handleToolCallDyn sampleFmt [] "frobnicate" (.obj [])
      = .ok (.obj [("error", .str "Tool \x22frobnicate\x22 not found.")])
    ∧ turnLoopDyn sampleFmt [] c8Provider MAX_TURNS 0
      = .crashed "TypeError: keywords.map is not a function" 2 := by
  refine ⟨rfl, rfl, rfl⟩

/-! ## C6: search_logs OR/AND semantics -/

lemma isPrefixChars_iff (n : List Char) :
    ∀ h : List Char, isPrefixChars n h = true ↔ n <+: h := by
  induction n with
  | nil => intro h; simp [isPrefixChars]
  | cons a as ih =>
    intro h
    cases h with
    | nil => simp [isPrefixChars]
    | cons b bs =>
      rw [isPrefixChars, List.cons_prefix_cons, Bool.and_eq_true,
        decide_eq_true_eq, ih bs]

lemma hasSubstr_iff (n : List Char) :
    ∀ h : List Char, hasSubstr n h = true ↔ n <:+: h := by
  intro h
  induction h with
  | nil =>
    rw [hasSubstr, List.isEmpty_iff]
    constructor
    · intro hn; rw [hn]
    · intro hn; exact List.eq_nil_of_infix_nil hn
  | cons c rest ih =>
    rw [hasSubstr, Bool.or_eq_true, isPrefixChars_iff, ih,
      List.infix_cons_iff]

/-- C6: for every corpus and non-empty keyword list, the `search_logs`
filter in OR mode matches exactly the corpus entries whose lower-cased
message-plus-formatted-timestamp text contains at least one lower-cased
keyword as a substring; and every entry matched in AND mode is matched
in OR mode. -/
theorem search_logs_or_and_semantics (fmt : Int → String)
    (corpus : List LogEntry) (kws : List String) (hne : kws ≠ []) :
    (∀ log, log ∈ searchLogsMatches fmt corpus kws .OR ↔
       log ∈ corpus ∧ ∃ kw ∈ kws,
         (toLowerStr kw).data <:+: (searchText fmt log).data)
    ∧ (∀ log, log ∈ searchLogsMatches fmt corpus kws .AND →
        log ∈ searchLogsMatches fmt corpus kws .OR) := by
  have hmatch : ∀ (mode : MatchMode) (log : LogEntry),
      keywordMatch fmt kws mode log
        = match mode with
          | .AND => (kws.map toLowerStr).all
              (fun kw => strIncludes (searchText fmt log) kw)
          | .OR => (kws.map toLowerStr).any
              (fun kw => strIncludes (searchText fmt log) kw) := by
    intro mode log; cases mode <;> rfl
  constructor
  · intro log
    rw [searchLogsMatches, List.mem_filter, hmatch]
    simp only [List.any_eq_true, List.mem_map]
    constructor
    · rintro ⟨hmem, x, ⟨kw, hkw, rfl⟩, hinc⟩
      exact ⟨hmem, kw, hkw, (hasSubstr_iff _ _).mp hinc⟩
    · rintro ⟨hmem, kw, hkw, hinf⟩
      exact ⟨hmem, toLowerStr kw, ⟨kw, hkw, rfl⟩, (hasSubstr_iff _ _).mpr hinf⟩
  · intro log hlog
    rw [searchLogsMatches, List.mem_filter] at hlog ⊢
    obtain ⟨hmem, hall⟩ := hlog
    rw [hmatch] at hall
    rw [hmatch]
    simp only [List.all_eq_true] at hall
    simp only [List.any_eq_true]
    obtain ⟨kw, hkw⟩ := List.exists_mem_of_ne_nil kws hne
    exact ⟨hmem, toLowerStr kw, List.mem_map_of_mem _ hkw,
      hall _ (List.mem_map_of_mem _ hkw)⟩

/-- Witness for `search_logs_or_and_semantics`: the entry containing
"Battery" matches the OR search for ["battery", "charger"]. -/
theorem search_logs_or_and_semantics_witness :
    sampleLog ∈ searchLogsMatches sampleFmt sampleCorpus
      ["battery", "charger"] .OR := by
  have h := search_logs_or_and_semantics sampleFmt sampleCorpus
    ["battery", "charger"] (by decide)
  exact (h.1 sampleLog).mpr ⟨by decide, "battery", by decide,
    (hasSubstr_iff _ _).mp (by decide)⟩

/-! ## C4: repeating_error pattern mining -/

/-- C4: `find_log_patterns(repeating_error)` considers only ERROR and
CRITICAL entries, merges messages that differ only in digit runs, keeps
the first entry's identifier per group, and returns at most the top 5
groups; on the corpus `[{ERROR,"disk N full"}×3, {ERROR,"disk 7 full"},
{INFO,"ok"}]` it returns exactly one top pattern with count 4 and the
first disk entry's id. -/
theorem repeating_error_digit_normalization :
    findLogPatterns c4Corpus .repeatingError none
      = .repeating [⟨"disk N full", 4, 1⟩]
    ∧ (∀ (logs : List LogEntry) (twm : Option Int) (top : List PatternGroup),
        findLogPatterns logs .repeatingError twm = .repeating top →
        top.length ≤ 5)
    ∧ groupErrors c4Corpus
        = groupErrors (c4Corpus.filter (fun l =>
            decide (l.level = .ERROR) || decide (l.level = .CRITICAL))) := by
  refine ⟨by decide, ?_, by decide⟩
  intro logs twm top h
  simp only [findLogPatterns] at h
  split at h
  · cases h
  · injection h with h'
    rw [← h']
    exact List.length_take_le _ _

/-- Witness for `repeating_error_digit_normalization`: the bound applied
at the concrete corpus. -/
theorem repeating_error_digit_normalization_witness :
    ([⟨"disk N full", 4, 1⟩] : List PatternGroup).length ≤ 5 :=
  (repeating_error_digit_normalization).2.1 c4Corpus none _
    (repeating_error_digit_normalization).1

/-! ## C5: frequency_spike statistics -/

lemma sqrt_threshold_iff (μ v c : ℝ) (_hv : 0 ≤ v) :
    μ + 2 * Real.sqrt v < c ↔ μ < c ∧ 4 * v < (c - μ) ^ 2 := by
  have hs : 0 ≤ Real.sqrt v := Real.sqrt_nonneg v
  constructor
  · intro h
    have hμ : μ < c := by nlinarith
    have hpos : 0 < (c - μ) / 2 := by linarith
    have h2 : Real.sqrt v < (c - μ) / 2 := by linarith
    have h3 := (Real.sqrt_lt' hpos).mp h2
    exact ⟨hμ, by nlinarith⟩
  · rintro ⟨hμ, h4⟩
    have hpos : 0 < (c - μ) / 2 := by linarith
    have h3 : v < ((c - μ) / 2) ^ 2 := by nlinarith
    have h2 := (Real.sqrt_lt' hpos).mpr h3
    linarith


lemma sq_div_aux (a S n : ℝ) (hn : n ≠ 0) :
    (a - S / n) ^ 2 = (a * n - S) ^ 2 * (n ^ 2)⁻¹ := by
  field_simp

lemma ratio_iff_aux (n S T C : ℝ) (hn : 0 < n) (hT : 0 ≤ T) :
    S / n + 2 * Real.sqrt (T / n ^ 3) < C
      ↔ (S < C * n ∧ 4 * T < n * (C * n - S) ^ 2) := by
  have hv : 0 ≤ T / n ^ 3 := by positivity
  rw [sqrt_threshold_iff _ _ _ hv]
  have h1 : S / n < C ↔ S < C * n := div_lt_iff₀ hn
  have h2 : 4 * (T / n ^ 3) < (C - S / n) ^ 2
      ↔ 4 * T < n * (C * n - S) ^ 2 := by
    rw [show C - S / n = (C * n - S) / n by field_simp]
    rw [div_pow, show 4 * (T / n ^ 3) = (4 * T) / n ^ 3 by ring]
    rw [div_lt_div_iff₀ (by positivity) (by positivity)]
    constructor <;> intro h <;> nlinarith [hn, mul_pos hn hn]
  rw [h1, h2]

/-- The exact-integer spike test agrees with the source's
`count > avg + 2 * stdDev` threshold over the reals, for any non-empty
bucket-count list. -/
lemma spikeTest_iff_threshold (counts : List Nat) (c : Nat)
    (hne : counts ≠ []) :
    spikeTest counts c = true ↔ SpikeThreshold counts c := by
  have hnpos : 0 < counts.length := List.length_pos.mpr hne
  have hN : (0 : ℝ) < (counts.length : ℝ) := by exact_mod_cast hnpos
  have hNne : (counts.length : ℝ) ≠ 0 := ne_of_gt hN
  have hT0 : (0 : Int) ≤ (counts.map (fun (x : Nat) =>
      ((x : Int) * counts.length - counts.sum) ^ 2)).sum := by
    apply List.sum_nonneg
    intro y hy
    obtain ⟨x, _, rfl⟩ := List.mem_map.mp hy
    positivity
  have hmean : jsMean counts = (counts.sum : ℝ) / (counts.length : ℝ) := by
    rw [jsMean, ← Nat.cast_list_sum]
  have hpoint : ∀ x ∈ counts,
      ((x : ℝ) - jsMean counts) ^ 2
        = ((((x : Int) * counts.length - counts.sum) ^ 2 : Int) : ℝ)
          * (((counts.length : ℝ) ^ 2)⁻¹) := by
    intro x _
    rw [hmean, sq_div_aux _ _ _ hNne]
    congr 1
    generalize counts.sum = S0
    generalize counts.length = n0
    push_cast
    ring
  have hV : (counts.map (fun (x : Nat) =>
        ((x : ℝ) - jsMean counts) ^ 2)).sum
      = ((counts.map (fun (x : Nat) =>
          ((x : Int) * counts.length - counts.sum) ^ 2)).sum : ℝ)
        / (counts.length : ℝ) ^ 2 := by
    rw [List.map_congr_left hpoint, List.sum_map_mul_right,
      Int.cast_list_sum, List.map_map, div_eq_mul_inv]
    rfl
  have hstd : jsStdDev counts
      = Real.sqrt (((counts.map (fun (x : Nat) =>
          ((x : Int) * counts.length - counts.sum) ^ 2)).sum : ℝ)
        / (counts.length : ℝ) ^ 3) := by
    rw [jsStdDev, hV, div_div, ← pow_succ]
  rw [SpikeThreshold, hmean, hstd,
    ratio_iff_aux _ _ _ _ hN (by exact_mod_cast hT0)]
  rw [show spikeTest counts c
      = (decide (counts.sum < c * counts.length) &&
         decide (4 * (counts.map (fun (x : Nat) =>
             ((x : Int) * counts.length - counts.sum) ^ 2)).sum
           < (counts.length : Int)
             * ((c : Int) * counts.length - counts.sum) ^ 2)) from rfl]
  rw [Bool.and_eq_true, decide_eq_true_eq, decide_eq_true_eq]
  constructor <;> rintro ⟨a, b⟩ <;>
    exact ⟨by exact_mod_cast a, by exact_mod_cast b⟩

/-- C5: `find_log_patterns(frequency_spike)` buckets entries into fixed
60-second windows, computes the mean and population standard deviation
of the bucket counts, and reports exactly the buckets whose count
exceeds `mean + 2·stdDev` (the executable test agrees with that real
threshold for every non-empty count list); fewer than 2 buckets yields
the explicit "not enough data" result; and on 10 one-minute buckets of
count 1 plus one bucket of count 20, exactly the count-20 bucket is
reported as a spike. -/
theorem frequency_spike_two_sigma :
    findLogPatterns c5Corpus .frequencySpike none = .spikes [(600000, 20)]
    ∧ findLogPatterns c5Single .frequencySpike none = .notEnoughData
    ∧ (∀ (counts : List Nat) (c : Nat), counts ≠ [] →
        (spikeTest counts c = true ↔ SpikeThreshold counts c)) :=
  ⟨by decide, by decide,
   fun counts c h => spikeTest_iff_threshold counts c h⟩

/-- Witness for `frequency_spike_two_sigma`: the count-20 bucket of the
spec's scenario does exceed `mean + 2·stdDev` over the reals. -/
theorem frequency_spike_two_sigma_witness :
    SpikeThreshold (List.replicate 10 1 ++ [20]) 20 :=
  ((frequency_spike_two_sigma).2.2 (List.replicate 10 1 ++ [20]) 20
    (by decide)).mp (by decide)
